import Mathlib

/-!
Verification development for the Ghost Manager compliance pipeline.

The repository orchestrates HIPAA/FDA specialist tasks and merges their
outputs into a single structured verdict.  This file gives a shallow
embedding of:

* the escalation resolver (the deterministic logic of §4.4 of the
  specification; in the repository this logic lives only in the
  `simplifier_instruction` prompt of `src/agents/coordinator_agent.py`,
  executed by an external language model, so the resolver is modelled
  from the specification's words);
* the five specialist scan tools (`scan_privacy`, `get_security_findings`,
  `assess_breach`, `scan_records`, `scan_signatures`), embedded from the
  Python source;
* the session-history helpers of `src/utils.py`
  (`atomic_update_session`, `update_interaction_history`,
  `add_user_query_to_history`, `add_agent_response_to_history`),
  embedded from the Python source.

Machine timestamps (Python `time.time()`, `datetime.now()`) are passed
in as explicit parameters, since they are environment inputs.
-/

/-- A JSON-like value, the shape of data flowing between pipeline stages.
Python dicts are association lists of string keys (insertion order kept). -/
inductive JVal where
  | null : JVal
  | bool (b : Bool) : JVal
  | num (n : Int) : JVal
  | str (s : String) : JVal
  | arr (elems : List JVal) : JVal
  | obj (fields : List (String × JVal)) : JVal

/-- First-match association-list lookup, the model of Python `dict.get`. -/
def lookupField : List (String × JVal) → String → Option JVal
  | [], _ => none
  | (k', v) :: rest, k => if k' = k then some v else lookupField rest k

mutual

/-- All string leaves of a value, in order: the "recursively flattened to
text" of §4.4 Step 2 rule 2 of the spec. -/
def flattenStrings : JVal → List String
  | .null => []
  | .bool _ => []
  | .num _ => []
  | .str s => [s]
  | .arr xs => flattenList xs
  | .obj fs => flattenFields fs

/-- String leaves of a list of values. -/
def flattenList : List JVal → List String
  | [] => []
  | x :: xs => flattenStrings x ++ flattenList xs

/-- String leaves of an object's field list. -/
def flattenFields : List (String × JVal) → List String
  | [] => []
  | p :: fs => flattenStrings p.2 ++ flattenFields fs

end

/-- Final status values (§3 of the spec). -/
inductive Status where
  | OK : Status
  | WARNING : Status
  | VIOLATION : Status
deriving DecidableEq, Repr

/-- Modelled from the spec: the fixed, case-insensitive SeverityTrigger
set (§3), identical to the list in `simplifier_instruction`. -/
def severityTriggers : List String :=
  ["violation", "unauthorized", "exposed", "ssn", "social security",
   "patient name", "hospitalization", "death", "serious adverse",
   "immediate report", "breach", "leak"]

/-- Substring test: `pat` occurs contiguously in `hay`. -/
def containsSub (hay pat : String) : Bool :=
  decide (pat.data <:+: hay.data)

/-- Character-wise lowercasing, the model of Python `str.lower`. -/
def toLowerStr (s : String) : String :=
  String.mk (s.data.map Char.toLower)

/-- Case-insensitive severity-trigger test for one text block. -/
def containsTrigger (t : String) : Bool :=
  severityTriggers.any (fun p => containsSub (toLowerStr t) p)

/-- A severity trigger occurs in some element of a text list. -/
def hasTrigger (ts : List String) : Bool :=
  ts.any containsTrigger

/-- The text of an optional field when it is a string. -/
def strField : Option JVal → List String
  | some (.str s) => [s]
  | _ => []

/-- Modelled from the spec: the text of one issue entry — its
`explanation` and `type` fields (§4.4 Step 2 rule 3a); a bare string
issue is its own text; other shapes contribute no text. -/
def issueText : JVal → List String
  | .str s => [s]
  | .obj fs => strField (lookupField fs "explanation") ++ strField (lookupField fs "type")
  | _ => []

/-- Modelled from the spec: the per-domain data the resolver needs — the
domain's `short_summary` text and its issue list, each issue reduced to
its text (§3 DomainReport, §4.4 Step 2 rule 3).  Missing, non-mapping
domains and non-list `issues` degrade to "no data" (§4.1). -/
structure DomainData where
  summaryText : List String
  issues : List (List String)
deriving DecidableEq, Repr

/-- Modelled from the spec: defensive parse of one domain report. -/
def parseDomain : Option JVal → DomainData
  | some (.obj fs) =>
      { summaryText := strField (lookupField fs "short_summary"),
        issues :=
          match lookupField fs "issues" with
          | some (.arr xs) => xs.map issueText
          | _ => [] }
  | _ => { summaryText := [], issues := [] }

/-- Modelled from the spec: the `status` field when present and one of
the three recognized values; anything else is absent/unrecognized. -/
def parseStatus (fields : List (String × JVal)) : Option Status :=
  match lookupField fields "status" with
  | some (.str s) =>
      if s = "VIOLATION" then some .VIOLATION
      else if s = "WARNING" then some .WARNING
      else if s = "OK" then some .OK
      else none
  | _ => none

/-- Modelled from the spec: the `recommendations` sequence of strings. -/
def parseRecs : Option JVal → List String
  | some (.arr xs) =>
      xs.filterMap (fun v => match v with | .str s => some s | _ => none)
  | _ => []

/-- Modelled from the spec: the parsed SynthesizedReport (§3). -/
structure ParsedReport where
  status : Option Status
  hipaa : DomainData
  fda : DomainData
  recommendations : List String
  rawStrings : List String
deriving DecidableEq, Repr

/-- Modelled from the spec: the recognizable top-level fields of a
SynthesizedReport (§3, §4.4 Step 1). -/
def recognizedKeys : List String :=
  ["status", "hipaa", "fda", "recommendations", "raw_details"]

/-- Modelled from the spec: §4.4 Step 1 — the input can be interpreted
as the SynthesizedReport shape when it is a mapping having at least one
recognizable field. -/
def recognizable : JVal → Bool
  | .obj fs => fs.any (fun p => recognizedKeys.contains p.1)
  | _ => false

/-- Modelled from the spec: total parse of a recognizable report. -/
def parseRpt : JVal → ParsedReport
  | .obj fs =>
      { status := parseStatus fs,
        hipaa := parseDomain (lookupField fs "hipaa"),
        fda := parseDomain (lookupField fs "fda"),
        recommendations := parseRecs (lookupField fs "recommendations"),
        rawStrings :=
          match lookupField fs "raw_details" with
          | some v => flattenStrings v
          | none => [] }
  | _ =>
      { status := none, hipaa := ⟨[], []⟩, fda := ⟨[], []⟩,
        recommendations := [], rawStrings := [] }

/-- Modelled from the spec: the text scanned by the derivation path of
§4.4 Step 2 rule 3a — issue explanation/type/short_summary text across
both domains, HIPAA first. -/
def derivTexts (r : ParsedReport) : List String :=
  r.hipaa.summaryText ++ r.hipaa.issues.flatten ++
  r.fda.summaryText ++ r.fda.issues.flatten

/-- Modelled from the spec: §4.4 Step 2 — status resolution in strict
priority order. -/
def resolveStatus (r : ParsedReport) : Status :=
  match r.status with
  | some .VIOLATION => .VIOLATION
  | some .WARNING => if hasTrigger r.rawStrings then .VIOLATION else .WARNING
  | some .OK => .OK
  | none =>
      if hasTrigger (derivTexts r) then .VIOLATION
      else if !r.hipaa.issues.isEmpty || !r.fda.issues.isEmpty then .WARNING
      else .OK

/-- Modelled from the spec: §4.4 Step 3 candidate (a) — the first
trigger-matching issue, HIPAA ranked before FDA (tie-break of §4.4
Step 3, PHI exposure assumed more time-sensitive). -/
def findTriggerIssue (r : ParsedReport) : Option (String × List String) :=
  match r.hipaa.issues.find? hasTrigger with
  | some iss => some ("HIPAA", iss)
  | none =>
      match r.fda.issues.find? hasTrigger with
      | some iss => some ("FDA", iss)
      | none => none

/-- Modelled from the spec: §4.4 Step 3 candidate (b) — the first issue
with non-empty text and no trigger, HIPAA before FDA. -/
def findPlainIssue (r : ParsedReport) : Option (String × List String) :=
  match r.hipaa.issues.find? (fun iss => !iss.isEmpty) with
  | some iss => some ("HIPAA", iss)
  | none =>
      match r.fda.issues.find? (fun iss => !iss.isEmpty) with
      | some iss => some ("FDA", iss)
      | none => none

/-- One text block from an issue's text fields. -/
def joinTexts (ts : List String) : String :=
  String.intercalate " " ts

/-- Modelled from the spec: Scenario A reason for an OK verdict. -/
def okReason : String :=
  "No HIPAA or FDA issues detected in the synthesized report."

/-- Modelled from the spec: §4.4 Step 3 — primary-reason selection for a
non-OK status: trigger-matching issue, else non-empty issue, else top
recommendation, else a generic line; the chosen candidate explicitly
names its domain. -/
def selectReason (r : ParsedReport) : String :=
  match findTriggerIssue r with
  | some di => di.1 ++ " issue: " ++ joinTexts di.2
  | none =>
      match findPlainIssue r with
      | some di => di.1 ++ " issue: " ++ joinTexts di.2
      | none =>
          match r.recommendations with
          | rec :: _ => "Recommended action: " ++ rec
          | [] => "Synthesized report flagged a compliance concern."

/-- Modelled from the spec: §4.4 Step 4 — exactly one actionable
suggestion directly addressing the selected reason. -/
def mkSuggestion (reason : String) : String :=
  "Address the flagged item: " ++ reason

/-- The contractually-guaranteed final artifact (§3): exactly the three
fields status, reason, suggestions. -/
structure Verdict where
  status : Status
  reason : String
  suggestions : List String
deriving DecidableEq, Repr

/-- Modelled from the spec: §4.4 Step 1 canonical fallback verdict. -/
def fallbackVerdict : Verdict :=
  { status := .WARNING,
    reason := "Synthesized report missing or malformed; cannot confidently determine compliance.",
    suggestions := ["Check that the synthesizer produced the synthesized report and re-run the coordinator."] }

/-- Modelled from the spec: verdict construction for a recognizable
report — §4.4 Steps 2–4. -/
def mkVerdict (r : ParsedReport) : Verdict :=
  match resolveStatus r with
  | .OK => { status := .OK, reason := okReason, suggestions := ["No action required."] }
  | st => { status := st, reason := selectReason r,
            suggestions := [mkSuggestion (selectReason r)] }

/-- Modelled from the spec: the escalation resolver of §4.4 — the
missing deterministic core (in the repository it exists only as the
`simplifier_instruction` prompt executed by a language model).  Absent
or unrecognizable input degrades to the Step 1 fallback. -/
def resolveEscalation : Option JVal → Verdict
  | none => fallbackVerdict
  | some j => if recognizable j then mkVerdict (parseRpt j) else fallbackVerdict

/-! ## Specialist scan tools, embedded from the Python source.

Each tool wraps its whole body in try/except.  The body (a length call
and literal dict construction) is total, so the embedded tool is the
success branch; the except handler is embedded separately as the
tool's failure shape.  `time.time()` values are the parameters
`t1 t2`. -/

/-- From `src/agents/hipaa/privacy_rule_agent.py` (`scan_privacy`). -/
def scan_privacy (user_query : String) (t1 t2 : Int) : JVal :=
  .obj [("result", .obj [("user_query", .str user_query),
                         ("context", .str "Analyzing for HIPAA Privacy Rule compliance")]),
        ("stats", .obj [("query_length", .num user_query.length),
                        ("analysis_timestamp", .num t1)]),
        ("additional_info", .obj [("collected_at", .num t2),
                                  ("data_format", .str "dict"),
                                  ("analysis_type", .str "privacy_rule")])]

/-- From `src/agents/hipaa/security_rule_agent.py` (`get_security_findings`). -/
def get_security_findings (user_query : String) (t1 t2 : Int) : JVal :=
  .obj [("result", .obj [("user_query", .str user_query),
                         ("context", .str "Analyzing for HIPAA Security Rule compliance")]),
        ("stats", .obj [("query_length", .num user_query.length),
                        ("analysis_timestamp", .num t1)]),
        ("additional_info", .obj [("collected_at", .num t2),
                                  ("data_format", .str "dict"),
                                  ("analysis_type", .str "security_rule")])]

/-- From `src/agents/hipaa/breach_notification_agent.py` (`assess_breach`). -/
def assess_breach (user_query : String) (t1 t2 : Int) : JVal :=
  .obj [("result", .obj [("user_query", .str user_query),
                         ("context", .str "Analyzing for HIPAA breach notification requirements")]),
        ("stats", .obj [("query_length", .num user_query.length),
                        ("analysis_timestamp", .num t1)]),
        ("additional_info", .obj [("collected_at", .num t2),
                                  ("data_format", .str "dict"),
                                  ("analysis_type", .str "breach_notification")])]

/-- From `src/agents/fda/part11_records_agent.py` (`scan_records`). -/
def scan_records (user_query : String) (t1 t2 : Int) : JVal :=
  .obj [("result", .obj [("user_query", .str user_query),
                         ("context", .str "Analyzing for 21 CFR Part 11 electronic record-keeping compliance")]),
        ("stats", .obj [("query_length", .num user_query.length),
                        ("analysis_timestamp", .num t1)]),
        ("additional_info", .obj [("collected_at", .num t2),
                                  ("data_format", .str "dict"),
                                  ("analysis_type", .str "electronic_records")])]

/-- From `src/agents/fda/part11_signatures_agent.py` (`scan_signatures`). -/
def scan_signatures (user_query : String) (t1 t2 : Int) : JVal :=
  .obj [("result", .obj [("user_query", .str user_query),
                         ("context", .str "Analyzing for 21 CFR Part 11 electronic signature compliance")]),
        ("stats", .obj [("query_length", .num user_query.length),
                        ("analysis_timestamp", .num t1)]),
        ("additional_info", .obj [("collected_at", .num t2),
                                  ("data_format", .str "dict"),
                                  ("analysis_type", .str "electronic_signatures")])]

/-- The except-handler of every scan tool: the error-shaped result
`toolName failed: msg` with `stats.success = false` and the exception's
type name, embedded from the Python source. -/
def scanFailure (toolName msg errType : String) : JVal :=
  .obj [("result", .obj [("error", .str (toolName ++ " failed: " ++ msg))]),
        ("stats", .obj [("success", .bool false)]),
        ("additional_info", .obj [("error_type", .str errType)])]

/-- The success shape of §6: a mapping with `result`, `stats` carrying
`query_length` equal to the query's length and an `analysis_timestamp`,
and `additional_info` carrying `collected_at`, `data_format`,
`analysis_type`. -/
def successShape (out : JVal) (query : String) : Bool :=
  match out with
  | .obj fs =>
      (lookupField fs "result").isSome &&
      (match lookupField fs "stats" with
       | some (.obj st) =>
           (match lookupField st "query_length" with
            | some (.num n) => n == query.length
            | _ => false) &&
           (lookupField st "analysis_timestamp").isSome
       | _ => false) &&
      (match lookupField fs "additional_info" with
       | some (.obj ai) =>
           (lookupField ai "collected_at").isSome &&
           (lookupField ai "data_format").isSome &&
           (lookupField ai "analysis_type").isSome
       | _ => false)
  | _ => false

/-- The internal-failure shape of §6:
`result.error`, `stats.success = false`, `additional_info.error_type`. -/
def errorShape (out : JVal) : Bool :=
  match out with
  | .obj fs =>
      (match lookupField fs "result" with
       | some (.obj r) => (lookupField r "error").isSome
       | _ => false) &&
      (match lookupField fs "stats" with
       | some (.obj st) =>
           (match lookupField st "success" with
            | some (.bool b) => b == false
            | _ => false)
       | _ => false) &&
      (match lookupField fs "additional_info" with
       | some (.obj ai) => (lookupField ai "error_type").isSome
       | _ => false)
  | _ => false

/-! ## Session-history helpers, embedded from `src/utils.py`.

Session state and history entries are Python dicts; history entries in
this codebase are string-valued dicts, modelled as association lists
(insertion order kept, as in Python).  A history list may also carry
non-dict values, which `_entry_id` stringifies; those are the `other`
variant. -/

/-- First-match association-list lookup for string-valued dicts
(Python `dict.get`). -/
def lookupKey : List (String × String) → String → Option String
  | [], _ => none
  | (k', v) :: rest, k => if k' = k then some v else lookupKey rest k

/-- Python `e.get(k, dflt)`. -/
def getKeyD (fs : List (String × String)) (k dflt : String) : String :=
  (lookupKey fs k).getD dflt

/-- One interaction-history entry: a dict, or any other value already
reduced to its `str()` rendering. -/
inductive HEntry where
  | dict (fields : List (String × String)) : HEntry
  | other (rendered : String) : HEntry
deriving DecidableEq, Repr

/-- Python `isinstance(e, dict)`. -/
def HEntry.isDict : HEntry → Bool
  | .dict _ => true
  | .other _ => false

/-- From `src/utils.py` (`_entry_id`): the composite de-duplication key
`f"{action}|{timestamp}|{query-or-course_id}"`; non-dict entries are
keyed by their `str()` rendering. -/
def entryId : HEntry → String
  | .other s => s
  | .dict fs =>
      getKeyD fs "action" "" ++ "|" ++ getKeyD fs "timestamp" "" ++ "|" ++
      (match lookupKey fs "query" with
       | some v => v
       | none => getKeyD fs "course_id" "")

/-- Session state: the `interaction_history` list plus the remaining
keys, which the history helpers never touch. -/
structure SessionState where
  interaction_history : List HEntry
  rest : List (String × String)
deriving DecidableEq, Repr

/-- From `src/utils.py` (`update_interaction_history`, lines 84–86):
when the entry lacks a `timestamp` key, a copy (`dict(entry)`) is
extended with `timestamp = now`; Python key assignment on a fresh copy
appends the new key after the existing ones. -/
def addTimestampIfMissing (now : String) (entry : List (String × String)) :
    List (String × String) :=
  if (lookupKey entry "timestamp").isSome then entry
  else entry ++ [("timestamp", now)]

/-- From `src/utils.py` (`update_interaction_history.patch_fn`): append
the entry unless some existing dict entry already has its composite
key; every existing entry is kept unchanged. -/
def historyPatch (entry : List (String × String)) (st : SessionState) : SessionState :=
  if (st.interaction_history.filter HEntry.isDict).any
       (fun e => entryId e == entryId (.dict entry))
  then { st with interaction_history := st.interaction_history }
  else { st with interaction_history := st.interaction_history ++ [HEntry.dict entry] }

/-- From `src/utils.py` (`update_interaction_history`): the state
transformation applied by the successful write — timestamp defaulting
followed by the de-duplicating append.  `now` is the formatted
`datetime.now()` string. -/
def update_interaction_history (now : String) (entry : List (String × String))
    (st : SessionState) : SessionState :=
  historyPatch (addTimestampIfMissing now entry) st

/-- From `src/utils.py` (`add_user_query_to_history`). -/
def add_user_query_to_history (now query : String) (st : SessionState) : SessionState :=
  update_interaction_history now [("action", "user_query"), ("query", query)] st

/-- From `src/utils.py` (`add_agent_response_to_history`). -/
def add_agent_response_to_history (now agent response : String) (st : SessionState) :
    SessionState :=
  update_interaction_history now
    [("action", "agent_response"), ("agent", agent), ("response", response)] st

/-! ## Retry loop of `atomic_update_session`, embedded from `src/utils.py`.

The fallible try-block (`get_session`, `patch_fn`, `create_session`) is
an environment oracle `ok : Nat → Bool` giving each 1-based attempt's
outcome; `time.sleep(backoff_factor * attempt)` durations are recorded.
Python's float `backoff_factor` is modelled as a rational. -/

/-- Observable outcome of the retry loop: whether a write succeeded,
how many attempts ran, and the sleep durations in order. -/
structure RetryResult where
  succeeded : Bool
  attemptsMade : Nat
  sleeps : List ℚ
deriving DecidableEq, Repr

/-- The `for attempt in range(1, max_retries + 1)` loop: on a failed
attempt the loop sleeps `backoff_factor * attempt` (also after the last
failure) and continues; it stops at the first successful write. -/
def runRetries (ok : Nat → Bool) (backoff : ℚ) : Nat → Nat → RetryResult
  | _, 0 => { succeeded := false, attemptsMade := 0, sleeps := [] }
  | attempt, r + 1 =>
      if ok attempt then { succeeded := true, attemptsMade := 1, sleeps := [] }
      else
        { succeeded := (runRetries ok backoff (attempt + 1) r).succeeded,
          attemptsMade := (runRetries ok backoff (attempt + 1) r).attemptsMade + 1,
          sleeps := backoff * attempt :: (runRetries ok backoff (attempt + 1) r).sleeps }

/-- From `src/utils.py` (`atomic_update_session`): attempts start at 1;
`succeeded = false` is the terminal `RuntimeError` raised after
exhausting all attempts. -/
def atomic_update_session (ok : Nat → Bool) (maxRetries : Nat) (backoff : ℚ) :
    RetryResult :=
  runRetries ok backoff 1 maxRetries

/-- Default `max_retries` of `atomic_update_session`. -/
def defaultMaxRetries : Nat := 5

/-- Default `backoff_factor` (Python `0.02`). -/
def defaultBackoff : ℚ := 1 / 50

/-! ## Helper lemmas shared by the claim theorems. -/

/-- A satisfied `any` yields a `find?` witness. -/
theorem find?_of_any {α : Type} {l : List α} {p : α → Bool} (h : l.any p = true) :
    ∃ x, l.find? p = some x :=
  Option.isSome_iff_exists.mp (List.find?_isSome.mpr (List.any_eq_true.mp h))

/-- An object with a recognized key that looks up successfully is
recognizable. -/
theorem recognizable_of_lookup {fs : List (String × JVal)} {k : String} {v : JVal}
    (hk : recognizedKeys.contains k = true) (h : lookupField fs k = some v) :
    recognizable (.obj fs) = true := by
  induction fs with
  | nil => simp [lookupField] at h
  | cons p rest ih =>
    obtain ⟨k', v'⟩ := p
    simp only [lookupField] at h
    by_cases hpk : k' = k
    · subst hpk
      simp only [recognizable, List.any_cons, Bool.or_eq_true]
      exact Or.inl hk
    · rw [if_neg hpk] at h
      have hrest := ih h
      simp only [recognizable] at hrest
      simp only [recognizable, List.any_cons, Bool.or_eq_true]
      exact Or.inr hrest

/-- String leaves of a looked-up field are string leaves of the object. -/
theorem mem_flatten_of_lookup {fs : List (String × JVal)} {k : String} {v : JVal}
    {s : String} (h : lookupField fs k = some v) (hs : s ∈ flattenStrings v) :
    s ∈ flattenStrings (.obj fs) := by
  induction fs with
  | nil => simp [lookupField] at h
  | cons p rest ih =>
    obtain ⟨k', v'⟩ := p
    simp only [lookupField] at h
    show s ∈ flattenFields ((k', v') :: rest)
    rw [flattenFields]
    by_cases hpk : k' = k
    · rw [if_pos hpk] at h
      injection h with h
      subst h
      exact List.mem_append.mpr (Or.inl hs)
    · rw [if_neg hpk] at h
      exact List.mem_append.mpr (Or.inr (ih h))

/-- Membership in `strField` forces the field to be that string. -/
theorem strField_mem {ov : Option JVal} {s : String} (h : s ∈ strField ov) :
    ov = some (.str s) := by
  rcases ov with _ | v
  · cases h
  · rcases v with _ | b | n | s' | xs | gs
    · cases h
    · cases h
    · cases h
    · cases h with
      | head => rfl
      | tail _ h => cases h
    · cases h
    · cases h

/-- Issue text is made of string leaves of the issue value. -/
theorem issueText_mem {x : JVal} {s : String} (h : s ∈ issueText x) :
    s ∈ flattenStrings x := by
  cases x with
  | str s' => simpa [issueText, flattenStrings] using h
  | obj gs =>
    simp only [issueText, List.mem_append] at h
    rcases h with h | h
    · have hl := strField_mem h
      exact mem_flatten_of_lookup hl (by simp [flattenStrings])
    · have hl := strField_mem h
      exact mem_flatten_of_lookup hl (by simp [flattenStrings])
  | null => simp [issueText] at h
  | bool b => simp [issueText] at h
  | num n => simp [issueText] at h
  | arr xs => simp [issueText] at h

/-- String leaves of a list member are leaves of the flattened list. -/
theorem mem_flattenList {x : JVal} {xs : List JVal} {s : String}
    (hx : x ∈ xs) (hs : s ∈ flattenStrings x) : s ∈ flattenList xs := by
  induction xs with
  | nil => cases hx
  | cons y ys ih =>
    rw [flattenList]
    rcases List.mem_cons.mp hx with h | h
    · subst h
      exact List.mem_append.mpr (Or.inl hs)
    · exact List.mem_append.mpr (Or.inr (ih h))

/-- Every summary or issue string of a parsed domain is a string leaf of
the domain value. -/
theorem parseDomain_strings {j : JVal} {s : String}
    (h : s ∈ (parseDomain (some j)).summaryText ∨
         s ∈ (parseDomain (some j)).issues.flatten) :
    s ∈ flattenStrings j := by
  cases j with
  | obj fs =>
    simp only [parseDomain] at h
    rcases h with h | h
    · have hl := strField_mem h
      exact mem_flatten_of_lookup hl (by simp [flattenStrings])
    · rcases hiss : lookupField fs "issues" with _ | v
      · rw [hiss] at h
        simp at h
      · rw [hiss] at h
        cases v with
        | arr xs =>
          simp only at h
          obtain ⟨l, hl, hsl⟩ := List.mem_flatten.mp h
          obtain ⟨x, hx, hmap⟩ := List.mem_map.mp hl
          subst hmap
          have : s ∈ flattenStrings x := issueText_mem hsl
          exact mem_flatten_of_lookup hiss
            (by simpa [flattenStrings] using mem_flattenList hx this)
        | null => simp at h
        | bool b => simp at h
        | num n => simp at h
        | str s' => simp at h
        | obj gs => simp at h
  | null => simp [parseDomain] at h
  | bool b => simp [parseDomain] at h
  | num n => simp [parseDomain] at h
  | str s' => simp [parseDomain] at h
  | arr xs => simp [parseDomain] at h

/-- Trigger absence is preserved under taking a sub-collection. -/
theorem hasTrigger_false_mono {l l' : List String}
    (hsub : ∀ s ∈ l, s ∈ l') (h : hasTrigger l' = false) :
    hasTrigger l = false := by
  cases hl : hasTrigger l with
  | false => rfl
  | true =>
    exfalso
    simp only [hasTrigger] at hl h
    obtain ⟨s, hs, hp⟩ := List.any_eq_true.mp hl
    have : l'.any containsTrigger = true := List.any_eq_true.mpr ⟨s, hsub s hs, hp⟩
    rw [this] at h
    cases h

/-- A trigger in a member text gives a trigger in the collection. -/
theorem hasTrigger_of_mem {l : List String} {s : String}
    (hs : s ∈ l) (h : containsTrigger s = true) : hasTrigger l = true :=
  List.any_eq_true.mpr ⟨s, hs, h⟩

/-- A trigger-matching HIPAA issue puts a trigger in the derivation
text of §4.4 Step 2 rule 3a. -/
theorem derivTexts_trigger_of_hipaa {r : ParsedReport}
    (h : r.hipaa.issues.any hasTrigger = true) :
    hasTrigger (derivTexts r) = true := by
  obtain ⟨iss, hiss, htr⟩ := List.any_eq_true.mp h
  simp only [hasTrigger] at htr
  obtain ⟨s, hsin, hc⟩ := List.any_eq_true.mp htr
  apply hasTrigger_of_mem _ hc
  have hm : s ∈ r.hipaa.issues.flatten := List.mem_flatten.mpr ⟨iss, hiss, hsin⟩
  unfold derivTexts
  exact List.mem_append_left _ (List.mem_append_left _ (List.mem_append_right _ hm))

/-- A string occurs in any string it starts. -/
theorem containsSub_self_append (pat rest : String) :
    containsSub (pat ++ rest) pat = true := by
  unfold containsSub
  apply decide_eq_true
  exact ⟨[], rest.data, by rw [List.nil_append, String.data_append]⟩

/-- With a trigger-matching HIPAA issue present, the selected reason
starts with the HIPAA domain name. -/
theorem selectReason_hipaa {r : ParsedReport}
    (h : r.hipaa.issues.any hasTrigger = true) :
    ∃ t, selectReason r = "HIPAA" ++ t := by
  obtain ⟨iss, hfind⟩ := find?_of_any h
  refine ⟨" issue: " ++ joinTexts iss, ?_⟩
  simp only [selectReason, findTriggerIssue, hfind]
  rw [String.append_assoc]

/-- Strings of a domain parsed from a field of `fs` are string leaves
of the object `fs`. -/
theorem parseDomain_lookup_sub {fs : List (String × JVal)} {k : String} {s : String}
    (h : s ∈ (parseDomain (lookupField fs k)).summaryText ∨
         s ∈ (parseDomain (lookupField fs k)).issues.flatten) :
    s ∈ flattenStrings (.obj fs) := by
  cases hl : lookupField fs k with
  | none =>
    rw [hl] at h
    simp [parseDomain] at h
  | some v =>
    rw [hl] at h
    exact mem_flatten_of_lookup hl (parseDomain_strings h)

/-! ## Claim theorems and witnesses. -/

/-- C1 (totality): for every input to the escalation resolver —
including absent input, the empty mapping, and arbitrary non-matching
shapes — the result is a `Verdict` (a structure with exactly the three
fields status, reason, suggestions) whose `suggestions` has length
exactly 1.  The resolver is a total function of its input, so it never
fails. -/
theorem resolver_total_suggestions_one (v : Option JVal) :
    (resolveEscalation v).suggestions.length = 1 := by
  cases v with
  | none => rfl
  | some j =>
    rw [resolveEscalation]
    by_cases hr : recognizable j = true
    · rw [if_pos hr]
      cases hrs : resolveStatus (parseRpt j) with
      | OK => simp [mkVerdict, hrs]
      | WARNING => simp [mkVerdict, hrs]
      | VIOLATION => simp [mkVerdict, hrs]
    · rw [if_neg hr]
      rfl

/-- C2 (malformed-input guard): when the input is absent or cannot be
interpreted as the SynthesizedReport shape (not a mapping, or missing
all recognizable fields), the resolver returns exactly the canonical
fallback verdict — WARNING, the canonical reason, and the single
canonical suggestion — and no other rule overrides this guard. -/
theorem resolver_fallback_exact (v : Option JVal)
    (h : ∀ j, v = some j → recognizable j = false) :
    resolveEscalation v = fallbackVerdict := by
  cases v with
  | none => rfl
  | some j =>
    have hj := h j rfl
    rw [resolveEscalation, if_neg (by simp [hj])]

/-- Witness for C2 at the concrete inputs `none` and the empty mapping. -/
theorem resolver_fallback_exact_witness :
    resolveEscalation none = fallbackVerdict ∧
    resolveEscalation (some (.obj [])) = fallbackVerdict :=
  ⟨resolver_fallback_exact none (fun j hj => by cases hj),
   resolver_fallback_exact (some (.obj [])) (fun j hj => by cases hj; rfl)⟩

/-- C3 (priority monotonicity): every input object whose `status` field
is the string VIOLATION resolves to status VIOLATION, regardless of any
severity-trigger text present or absent anywhere else in the input. -/
theorem resolver_violation_priority (fs : List (String × JVal))
    (h : lookupField fs "status" = some (.str "VIOLATION")) :
    (resolveEscalation (some (.obj fs))).status = .VIOLATION := by
  have hrec : recognizable (.obj fs) = true :=
    recognizable_of_lookup (by decide) h
  have hps : parseStatus fs = some .VIOLATION := by
    rw [parseStatus, h]
    rfl
  have hst : (parseRpt (.obj fs)).status = some .VIOLATION := hps
  have hrs : resolveStatus (parseRpt (.obj fs)) = .VIOLATION := by
    rw [resolveStatus, hst]
  simp [resolveEscalation, hrec, mkVerdict, hrs]

/-- Witness for C3 at a minimal report carrying only the status field. -/
theorem resolver_violation_priority_witness :
    lookupField [("status", JVal.str "VIOLATION")] "status" = some (.str "VIOLATION") ∧
    (resolveEscalation (some (.obj [("status", JVal.str "VIOLATION")]))).status = .VIOLATION :=
  ⟨rfl, resolver_violation_priority _ rfl⟩

/-- C4 (derivation correctness): a SynthesizedReport-shaped input with
absent status, empty issue lists for both the HIPAA and FDA domains,
and no severity-trigger substring anywhere in its text resolves to
status OK with suggestions exactly ["No action required."]. -/
theorem resolver_ok_derivation (j : JVal)
    (hrec : recognizable j = true)
    (hst : (parseRpt j).status = none)
    (hh : (parseRpt j).hipaa.issues = [])
    (hf : (parseRpt j).fda.issues = [])
    (htr : hasTrigger (flattenStrings j) = false) :
    (resolveEscalation (some j)).status = .OK ∧
    (resolveEscalation (some j)).suggestions = ["No action required."] := by
  obtain ⟨fs, rfl⟩ : ∃ fs, j = .obj fs := by
    cases j with
    | obj fs => exact ⟨fs, rfl⟩
    | null => exact (nomatch hrec)
    | bool b => exact (nomatch hrec)
    | num n => exact (nomatch hrec)
    | str s => exact (nomatch hrec)
    | arr xs => exact (nomatch hrec)
  have hsub : ∀ s ∈ derivTexts (parseRpt (.obj fs)), s ∈ flattenStrings (.obj fs) := by
    intro s hs
    simp only [derivTexts, parseRpt] at hs
    rcases List.mem_append.mp hs with hs1 | hs4
    · rcases List.mem_append.mp hs1 with hs2 | hs3
      · rcases List.mem_append.mp hs2 with hA | hB
        · exact parseDomain_lookup_sub (Or.inl hA)
        · exact parseDomain_lookup_sub (Or.inr hB)
      · exact parseDomain_lookup_sub (Or.inl hs3)
    · exact parseDomain_lookup_sub (Or.inr hs4)
  have htrd : hasTrigger (derivTexts (parseRpt (.obj fs))) = false :=
    hasTrigger_false_mono hsub htr
  have hrs : resolveStatus (parseRpt (.obj fs)) = .OK := by
    rw [resolveStatus, hst]
    simp [htrd, hh, hf]
  constructor
  · simp [resolveEscalation, hrec, mkVerdict, hrs]
  · simp [resolveEscalation, hrec, mkVerdict, hrs]

/-- Witness for C4 at a report with two empty issue lists. -/
theorem resolver_ok_derivation_witness :
    recognizable (JVal.obj [("hipaa", JVal.obj [("issues", JVal.arr [])]),
                            ("fda", JVal.obj [("issues", JVal.arr [])])]) = true ∧
    ((resolveEscalation (some (JVal.obj [("hipaa", JVal.obj [("issues", JVal.arr [])]),
                                         ("fda", JVal.obj [("issues", JVal.arr [])])]))).status = .OK ∧
     (resolveEscalation (some (JVal.obj [("hipaa", JVal.obj [("issues", JVal.arr [])]),
                                         ("fda", JVal.obj [("issues", JVal.arr [])])]))).suggestions =
       ["No action required."]) :=
  ⟨rfl, resolver_ok_derivation _ rfl rfl rfl rfl rfl⟩

/-- C5 (tie-break): when both a HIPAA issue and an FDA issue contain a
severity-trigger match (equal severity, severity being implied by the
domain), the verdict's reason text references HIPAA — HIPAA is
preferred over FDA. -/
theorem resolver_hipaa_tiebreak (j : JVal)
    (hrec : recognizable j = true)
    (hh : (parseRpt j).hipaa.issues.any hasTrigger = true)
    (_hf : (parseRpt j).fda.issues.any hasTrigger = true) :
    containsSub (resolveEscalation (some j)).reason "HIPAA" = true := by
  rw [resolveEscalation, if_pos hrec]
  obtain ⟨t, hsel⟩ := selectReason_hipaa hh
  cases hrs : resolveStatus (parseRpt j) with
  | OK =>
    simp only [mkVerdict, hrs]
    decide
  | WARNING =>
    simp only [mkVerdict, hrs, hsel]
    exact containsSub_self_append "HIPAA" t
  | VIOLATION =>
    simp only [mkVerdict, hrs, hsel]
    exact containsSub_self_append "HIPAA" t

/-- Witness for C5 at a report with trigger-matching issues in both
domains. -/
theorem resolver_hipaa_tiebreak_witness :
    recognizable (JVal.obj [("hipaa", JVal.obj [("issues", JVal.arr [JVal.str "Breach of PHI"])]),
                            ("fda", JVal.obj [("issues", JVal.arr [JVal.str "data leak found"])])]) = true ∧
    (parseRpt (JVal.obj [("hipaa", JVal.obj [("issues", JVal.arr [JVal.str "Breach of PHI"])]),
                         ("fda", JVal.obj [("issues", JVal.arr [JVal.str "data leak found"])])])).hipaa.issues.any hasTrigger = true ∧
    (parseRpt (JVal.obj [("hipaa", JVal.obj [("issues", JVal.arr [JVal.str "Breach of PHI"])]),
                         ("fda", JVal.obj [("issues", JVal.arr [JVal.str "data leak found"])])])).fda.issues.any hasTrigger = true ∧
    containsSub (resolveEscalation (some (JVal.obj [("hipaa", JVal.obj [("issues", JVal.arr [JVal.str "Breach of PHI"])]),
                                                    ("fda", JVal.obj [("issues", JVal.arr [JVal.str "data leak found"])])]))).reason "HIPAA" = true :=
  ⟨rfl, by decide, by decide,
   resolver_hipaa_tiebreak _ rfl (by decide) (by decide)⟩

/-- C6 (specialist boundary): for every query string, each of the five
specialist scan tools returns the §6 success shape — a mapping with
`result`, `stats` carrying `query_length` equal to the query's length
and an `analysis_timestamp`, and `additional_info` carrying
`collected_at`, `data_format` and `analysis_type` — and the tools'
shared except-handler produces exactly the §6 error shape; each tool is
a total function of its inputs, so nothing is raised past the
boundary. -/
theorem scan_tools_shape_contract (q : String) (t1 t2 : Int) :
    successShape (scan_privacy q t1 t2) q = true ∧
    successShape (get_security_findings q t1 t2) q = true ∧
    successShape (assess_breach q t1 t2) q = true ∧
    successShape (scan_records q t1 t2) q = true ∧
    successShape (scan_signatures q t1 t2) q = true ∧
    ∀ toolName msg errType, errorShape (scanFailure toolName msg errType) = true := by
  refine ⟨?_, ?_, ?_, ?_, ?_, ?_⟩
  · simp [successShape, scan_privacy, lookupField]
  · simp [successShape, get_security_findings, lookupField]
  · simp [successShape, assess_breach, lookupField]
  · simp [successShape, scan_records, lookupField]
  · simp [successShape, scan_signatures, lookupField]
  · intro toolName msg errType
    simp [errorShape, scanFailure, lookupField]

/-- The history produced by one `patch_fn` application, as a single
conditional equation. -/
theorem historyPatch_history (e : List (String × String)) (st : SessionState) :
    (historyPatch e st).interaction_history =
      if (st.interaction_history.filter HEntry.isDict).any
           (fun x => entryId x == entryId (.dict e))
      then st.interaction_history
      else st.interaction_history ++ [HEntry.dict e] := by
  by_cases hc : ((st.interaction_history.filter HEntry.isDict).any
      (fun x => entryId x == entryId (.dict e))) = true
  · rw [historyPatch, if_pos hc, if_pos hc]
  · rw [historyPatch, if_neg hc, if_neg hc]

/-- C7 (de-duplicated append-only log): `update_interaction_history`
appends the (timestamp-completed) entry exactly when no existing dict
entry carries the same composite key, and the previous history is
always a prefix of the new one — nothing is removed or modified. -/
theorem update_history_dedup_append_only (now : String)
    (entry : List (String × String)) (st : SessionState) :
    ((st.interaction_history.filter HEntry.isDict).any
        (fun e => entryId e == entryId (.dict (addTimestampIfMissing now entry))) = false ↔
      (update_interaction_history now entry st).interaction_history =
        st.interaction_history ++ [HEntry.dict (addTimestampIfMissing now entry)]) ∧
    st.interaction_history <+: (update_interaction_history now entry st).interaction_history := by
  rw [update_interaction_history]
  cases hc : (st.interaction_history.filter HEntry.isDict).any
      (fun e => entryId e == entryId (.dict (addTimestampIfMissing now entry))) with
  | true =>
    have heq : (historyPatch (addTimestampIfMissing now entry) st).interaction_history =
        st.interaction_history := by
      rw [historyPatch_history, if_pos hc]
    constructor
    · constructor
      · intro h
        cases h
      · intro h
        rw [heq] at h
        simp at h
    · rw [heq]
  | false =>
    have heq : (historyPatch (addTimestampIfMissing now entry) st).interaction_history =
        st.interaction_history ++ [HEntry.dict (addTimestampIfMissing now entry)] := by
      rw [historyPatch_history, if_neg (by simp [hc])]
    exact ⟨⟨fun _ => heq, fun _ => rfl⟩, heq ▸ List.prefix_append _ _⟩

/-- A second patch whose entry has the same composite key as a
just-patched entry never changes the history again. -/
theorem historyPatch_duplicate (e1 e2 : List (String × String)) (st : SessionState)
    (keq : entryId (.dict e2) = entryId (.dict e1)) :
    (historyPatch e2 (historyPatch e1 st)).interaction_history =
    (historyPatch e1 st).interaction_history := by
  have hc2 : ((historyPatch e1 st).interaction_history.filter HEntry.isDict).any
      (fun x => entryId x == entryId (.dict e2)) = true := by
    rw [historyPatch_history]
    by_cases hc1 : ((st.interaction_history.filter HEntry.isDict).any
        (fun x => entryId x == entryId (.dict e1))) = true
    · rw [if_pos hc1, keq]
      exact hc1
    · rw [if_neg hc1, keq]
      simp [List.filter_append, List.any_append, HEntry.isDict]
  rw [historyPatch_history e2, if_pos hc2]

/-- C9 (implicit collapse of same-timestamp agent responses): the
composite key of an `agent_response` entry is built only from
`(action, timestamp, query-or-course_id)` and such entries carry
neither `query` nor `course_id`, so recording a second agent response
with the same timestamp string leaves the history unchanged, even when
agent name and response text differ. -/
theorem agent_response_same_timestamp_dropped (ts a1 r1 a2 r2 : String)
    (st : SessionState) :
    (add_agent_response_to_history ts a2 r2
        (add_agent_response_to_history ts a1 r1 st)).interaction_history =
    (add_agent_response_to_history ts a1 r1 st).interaction_history := by
  simp only [add_agent_response_to_history, update_interaction_history]
  exact historyPatch_duplicate _ _ st rfl

/-- Association-list lookup distributes over append, first list first. -/
theorem lookupKey_append (l1 l2 : List (String × String)) (k : String) :
    lookupKey (l1 ++ l2) k =
      match lookupKey l1 k with
      | some v => some v
      | none => lookupKey l2 k := by
  induction l1 with
  | nil => rfl
  | cons p rest ih =>
    obtain ⟨k', v'⟩ := p
    by_cases hpk : k' = k
    · simp [lookupKey, hpk]
    · simp [lookupKey, hpk, ih]

/-- C10 (timestamp defaulting is a non-destructive copy): when the
entry has no `timestamp` key, the stored entry is the entry's fields
extended with a trailing `timestamp = now` field (the formatted current
time); every other key looks up unchanged, and the caller's entry value
is untouched — the code works on a `dict(entry)` copy, which the
pure embedding renders as building a new list. -/
theorem timestamp_defaulting (now : String) (entry : List (String × String))
    (st : SessionState) (h : lookupKey entry "timestamp" = none) :
    addTimestampIfMissing now entry = entry ++ [("timestamp", now)] ∧
    lookupKey (addTimestampIfMissing now entry) "timestamp" = some now ∧
    (∀ k, k ≠ "timestamp" →
      lookupKey (addTimestampIfMissing now entry) k = lookupKey entry k) ∧
    ((update_interaction_history now entry st).interaction_history =
        st.interaction_history ∨
     (update_interaction_history now entry st).interaction_history =
        st.interaction_history ++ [HEntry.dict (entry ++ [("timestamp", now)])]) := by
  have he : addTimestampIfMissing now entry = entry ++ [("timestamp", now)] := by
    rw [addTimestampIfMissing, h]
    rfl
  refine ⟨he, ?_, ?_, ?_⟩
  · rw [he, lookupKey_append, h]
    rfl
  · intro k hk
    rw [he, lookupKey_append]
    cases hl : lookupKey entry k with
    | some v => rfl
    | none =>
      show lookupKey [("timestamp", now)] k = none
      rw [lookupKey, if_neg (Ne.symm hk)]
      rfl
  · rw [update_interaction_history]
    by_cases hc : ((st.interaction_history.filter HEntry.isDict).any
        (fun e => entryId e == entryId (.dict (addTimestampIfMissing now entry)))) = true
    · left
      rw [historyPatch_history, if_pos hc]
    · right
      rw [historyPatch_history, if_neg hc, he]

/-- Witness for C10 at a user-query entry without a timestamp. -/
theorem timestamp_defaulting_witness :
    lookupKey [("action", "user_query"), ("query", "q")] "timestamp" = none ∧
    addTimestampIfMissing "2024-01-01 00:00:00" [("action", "user_query"), ("query", "q")] =
      [("action", "user_query"), ("query", "q"), ("timestamp", "2024-01-01 00:00:00")] ∧
    lookupKey (addTimestampIfMissing "2024-01-01 00:00:00"
        [("action", "user_query"), ("query", "q")]) "timestamp" =
      some "2024-01-01 00:00:00" :=
  ⟨rfl,
   (timestamp_defaulting "2024-01-01 00:00:00" [("action", "user_query"), ("query", "q")]
      ⟨[], []⟩ rfl).1,
   (timestamp_defaulting "2024-01-01 00:00:00" [("action", "user_query"), ("query", "q")]
      ⟨[], []⟩ rfl).2.1⟩

/-- The loop makes at most as many attempts as it has left. -/
theorem runRetries_attempts_le (ok : Nat → Bool) (b : ℚ) :
    ∀ r a, (runRetries ok b a r).attemptsMade ≤ r := by
  intro r
  induction r with
  | zero => intro a; exact Nat.le_refl 0
  | succ m ih =>
    intro a
    rw [runRetries]
    by_cases hok : ok a = true
    · rw [if_pos hok]
      exact Nat.succ_le_succ (Nat.zero_le m)
    · rw [if_neg hok]
      exact Nat.succ_le_succ (ih (a + 1))

/-- Sleep durations are strictly increasing and bounded below by the
sleep of the first attempt, for any positive backoff factor. -/
theorem runRetries_sleeps_chain (ok : Nat → Bool) (b : ℚ) (hb : 0 < b) :
    ∀ r a, List.Chain' (fun x y => x < y) (runRetries ok b a r).sleeps ∧
           ∀ x ∈ (runRetries ok b a r).sleeps, b * a ≤ x := by
  intro r
  induction r with
  | zero =>
    intro a
    exact ⟨List.chain'_nil, fun x hx => absurd hx (List.not_mem_nil x)⟩
  | succ m ih =>
    intro a
    rw [runRetries]
    by_cases hok : ok a = true
    · rw [if_pos hok]
      exact ⟨List.chain'_nil, fun x hx => absurd hx (List.not_mem_nil x)⟩
    · rw [if_neg hok]
      obtain ⟨ihc, ihbd⟩ := ih (a + 1)
      have hcast : ((a + 1 : ℕ) : ℚ) = (a : ℚ) + 1 := by push_cast; ring
      have hstep : b * (a : ℚ) < b * ((a + 1 : ℕ) : ℚ) := by
        rw [hcast]
        exact mul_lt_mul_of_pos_left (lt_add_one (a : ℚ)) hb
      constructor
      · refine List.chain'_cons'.mpr ⟨?_, ihc⟩
        intro y hy
        have hyin := List.mem_of_mem_head? hy
        exact lt_of_lt_of_le hstep (ihbd y hyin)
      · intro x hx
        rcases List.mem_cons.mp hx with hx | hx
        · exact le_of_eq hx.symm
        · exact le_of_lt (lt_of_lt_of_le hstep (ihbd x hx))

/-- When every attempt in the window fails, the loop exhausts it:
terminal failure, all attempts made, one sleep per attempt. -/
theorem runRetries_all_fail (ok : Nat → Bool) (b : ℚ) :
    ∀ r a, (∀ i, a ≤ i → i < a + r → ok i = false) →
    (runRetries ok b a r).succeeded = false ∧
    (runRetries ok b a r).attemptsMade = r ∧
    (runRetries ok b a r).sleeps.length = r := by
  intro r
  induction r with
  | zero => intro a _; exact ⟨rfl, rfl, rfl⟩
  | succ m ih =>
    intro a h
    have hok : ok a = false := h a (Nat.le_refl a) (by omega)
    rw [runRetries, if_neg (by simp [hok])]
    obtain ⟨i1, i2, i3⟩ := ih (a + 1) (fun i h1 h2 => h i (by omega) (by omega))
    refine ⟨i1, ?_, ?_⟩
    · show (runRetries ok b (a + 1) m).attemptsMade + 1 = m + 1
      rw [i2]
    · show (b * (a : ℚ) :: (runRetries ok b (a + 1) m).sleeps).length = m + 1
      rw [List.length_cons, i3]

/-- When the first success is at attempt `k` inside the window, the
loop stops there: success, `k - a + 1` attempts, one sleep for every
failed attempt before `k`. -/
theorem runRetries_first_success (ok : Nat → Bool) (b : ℚ) :
    ∀ r a k, a ≤ k → k < a + r → ok k = true →
    (∀ i, a ≤ i → i < k → ok i = false) →
    (runRetries ok b a r).succeeded = true ∧
    (runRetries ok b a r).attemptsMade = k - a + 1 ∧
    (runRetries ok b a r).sleeps.length = k - a := by
  intro r
  induction r with
  | zero => intro a k h1 h2 _ _; exact absurd h2 (by omega)
  | succ m ih =>
    intro a k hak hkr hok hfail
    by_cases hka : k = a
    · subst hka
      rw [runRetries, if_pos hok]
      refine ⟨rfl, ?_, ?_⟩
      · show 1 = k - k + 1
        omega
      · show 0 = k - k
        omega
    · have hok_a : ok a = false := hfail a (Nat.le_refl a) (by omega)
      rw [runRetries, if_neg (by simp [hok_a])]
      obtain ⟨i1, i2, i3⟩ :=
        ih (a + 1) k (by omega) (by omega) hok (fun i hi1 hi2 => hfail i (by omega) hi2)
      refine ⟨i1, ?_, ?_⟩
      · show (runRetries ok b (a + 1) m).attemptsMade + 1 = k - a + 1
        rw [i2]
        omega
      · show (b * (a : ℚ) :: (runRetries ok b (a + 1) m).sleeps).length = k - a
        rw [List.length_cons, i3]
        omega

/-- C8 (retry-with-sleep contract): `atomic_update_session` retries the
read-patch-write cycle on failure for a bounded number of attempts
(`max_retries`, default 5), sleeping `backoff_factor * attempt` after
each failure so the sleeps strictly increase with the attempt number;
it returns right after the first successful write with no further
attempts, and surfaces the terminal `RuntimeError` only after
exhausting all attempts. -/
theorem atomic_update_retry_contract (ok : Nat → Bool) (n : Nat) (b : ℚ)
    (hb : 0 < b) :
    (atomic_update_session ok n b).attemptsMade ≤ n ∧
    List.Chain' (fun x y => x < y) (atomic_update_session ok n b).sleeps ∧
    ((∀ i, 1 ≤ i → i ≤ n → ok i = false) →
      (atomic_update_session ok n b).succeeded = false ∧
      (atomic_update_session ok n b).attemptsMade = n ∧
      (atomic_update_session ok n b).sleeps.length = n) ∧
    (∀ k, 1 ≤ k → k ≤ n → ok k = true →
      (∀ i, 1 ≤ i → i < k → ok i = false) →
      (atomic_update_session ok n b).succeeded = true ∧
      (atomic_update_session ok n b).attemptsMade = k ∧
      (atomic_update_session ok n b).sleeps.length = k - 1) := by
  refine ⟨runRetries_attempts_le ok b n 1, (runRetries_sleeps_chain ok b hb n 1).1, ?_, ?_⟩
  · intro h
    exact runRetries_all_fail ok b n 1 (fun i h1 h2 => h i h1 (by omega))
  · intro k hk1 hkn hok hfail
    obtain ⟨i1, i2, i3⟩ :=
      runRetries_first_success ok b n 1 k hk1 (by omega) hok hfail
    refine ⟨i1, ?_, ?_⟩
    · show (runRetries ok b 1 n).attemptsMade = k
      rw [i2]
      omega
    · show (runRetries ok b 1 n).sleeps.length = k - 1
      rw [i3]

/-- Witness for C8: with the default 5 attempts, backoff 1/50, and a
write that first succeeds on attempt 3, the loop succeeds after exactly
3 attempts. -/
theorem atomic_update_retry_contract_witness :
    (0 : ℚ) < 1 / 50 ∧
    (atomic_update_session (fun i => i == 3) defaultMaxRetries defaultBackoff).succeeded = true ∧
    (atomic_update_session (fun i => i == 3) defaultMaxRetries defaultBackoff).attemptsMade = 3 :=
  ⟨by norm_num,
   ((atomic_update_retry_contract (fun i => i == 3) defaultMaxRetries defaultBackoff
       (by norm_num [defaultBackoff])).2.2.2 3
      (by decide) (by decide) (by decide)
      (fun i h1 h2 => by interval_cases i <;> rfl)).1,
   ((atomic_update_retry_contract (fun i => i == 3) defaultMaxRetries defaultBackoff
       (by norm_num [defaultBackoff])).2.2.2 3
      (by decide) (by decide) (by decide)
      (fun i h1 h2 => by interval_cases i <;> rfl)).2.1⟩
